import Mathlib

/-!
Shallow embedding of webosce/pmloglib (src/PmLogLib.c), the process-shared
logging facility.  C strings are modelled as `List Char` (no interior NUL),
nullable pointers as `Option`, machine ints as `Int`/`Nat`, and the shared
registry as an explicit record threaded through the operations.  Constants
that live in the headers (which are not part of the given sources) are
modelled from the specification and marked as such in their doc comments.
-/

namespace PmLog

/-- Error codes of the library (`PmLogErr`).  The constructor list and order
follow the `PmLogGetErrDbgString` table in PmLogLib.c. -/
inductive PmLogErr where
  | None
  | InvalidParameter
  | InvalidContextIndex
  | InvalidContext
  | InvalidLevel
  | InvalidFormat
  | InvalidData
  | NoData
  | TooMuchData
  | LevelDisabled
  | FormatStringFailed
  | TooManyContexts
  | InvalidContextName
  | ContextNotFound
  | BufferTooSmall
  | InvalidMsgID
  | EmptyMsgID
  | LoggingDisabled
  | Unknown
deriving DecidableEq, Repr

/-- Numeric level values, as documented in the `kLogLevelLabels` table of
PmLogLib.c (none = -1, emerg = 0, ..., debug = 7). -/
def kPmLogLevel_None : Int := -1

/-- Numeric value of the emergency level (0). -/
def kPmLogLevel_Emergency : Int := 0

/-- Numeric value of the alert level (1). -/
def kPmLogLevel_Alert : Int := 1

/-- Numeric value of the critical level (2). -/
def kPmLogLevel_Critical : Int := 2

/-- Numeric value of the error level (3). -/
def kPmLogLevel_Error : Int := 3

/-- Numeric value of the warning level (4). -/
def kPmLogLevel_Warning : Int := 4

/-- Numeric value of the notice level (5). -/
def kPmLogLevel_Notice : Int := 5

/-- Numeric value of the info level (6). -/
def kPmLogLevel_Info : Int := 6

/-- Numeric value of the debug level (7). -/
def kPmLogLevel_Debug : Int := 7

/-- Modelled from the spec: the context flag bits (`kPmLogFlag_*` live in the
header, which is not among the given sources).  The spec describes the flag
set `{LogProcessIds, LogThreadIds, LogToConsole, Overridden}`; the concrete
bit positions are immaterial to the claims. -/
def kPmLogFlag_LogProcessIds : Nat := 1

/-- Modelled from the spec: flag bit for logging thread ids. -/
def kPmLogFlag_LogThreadIds : Nat := 2

/-- Modelled from the spec: flag bit for mirroring to the console. -/
def kPmLogFlag_LogToConsole : Nat := 4

/-- Modelled from the spec: flag bit marking explicitly configured flags. -/
def kPmLogFlag_Overridden : Nat := 8

/-- Public per-context info (`PmLogContextInfo`): enabled level and flags. -/
structure PmLogContextInfo where
  enabledLevel : Int
  flags : Nat
deriving DecidableEq, Repr

/-- Private context record (`PmLogContext_`): public info plus the component
name (a bounded C string in the original). -/
structure PmLogContext_ where
  info : PmLogContextInfo
  component : List Char
deriving DecidableEq, Repr

/-- Console output configuration (`PmLogConsole`): per-stream level windows. -/
structure PmLogConsole where
  stdErrMinLevel : Int
  stdErrMaxLevel : Int
  stdOutMinLevel : Int
  stdOutMaxLevel : Int
deriving DecidableEq, Repr

/-- The shared registry (`PmLogGlobals`): capacity bound, console
configuration, the always-present global context and the user contexts in
creation order.  `numUserContexts` of the original is `userContexts.length`
here. -/
structure PmLogGlobals where
  maxUserContexts : Nat
  consoleConf : PmLogConsole
  globalContext : PmLogContext_
  userContexts : List PmLogContext_
deriving DecidableEq, Repr

/-- Length bound for message ids (`MSGID_LEN`, PmLogLib.c line 114). -/
def MSGID_LEN : Nat := 32

/-- Character-scan loop of `validate_msgid`: walks the id, first testing the
running length against `MSGID_LEN`, then testing the character against the
set space, curly-open, curly-close; at the terminating NUL an id of length
zero yields `EmptyMsgID`. -/
def validateMsgidScan : List Char → Nat → PmLogErr
  | [], msgid_len => if msgid_len = 0 then PmLogErr.EmptyMsgID else PmLogErr.None
  | c :: rest, msgid_len =>
    if MSGID_LEN ≤ msgid_len then PmLogErr.InvalidMsgID
    else if c = ' ' || c = '{' || c = '}' then PmLogErr.InvalidMsgID
    else validateMsgidScan rest (msgid_len + 1)

/-- Embedding of `validate_msgid` (PmLogLib.c lines 309-351): a NULL pointer
is `InvalidMsgID`; otherwise the scan loop decides.  The diagnostic prints of
the original do not affect the returned code and are omitted. -/
def validate_msgid : Option (List Char) → PmLogErr
  | none => PmLogErr.InvalidMsgID
  | some msgid => validateMsgidScan msgid 0

/-- Modelled from the spec: the maximum context-name length
(`PMLOG_MAX_CONTEXT_NAME_LEN`, defined in the missing header) — names are
bounded by 31 characters, matching both the spec and the doc comment of
`PmLogGetContext` in PmLogLib.c (names are 1..31 characters). -/
def PMLOG_MAX_CONTEXT_NAME_LEN : Nat := 31

/-- Modelled from the spec: the reserved name of the global context
(`kPmLogGlobalContextName`, defined in the missing header).  The exact
spelling is immaterial to the claims; it is special-cased by the name
validator. -/
def kPmLogGlobalContextName : List Char := "<global>".toList

/-- Modelled from the spec: the reserved name of the pre-registered library
context (`kPmLogDefaultLibContextName`, defined in the missing header). -/
def kPmLogDefaultLibContextName : List Char := "<library>".toList

/-- Character test of `PrvValidateContextName`: A-Z, a-z, 0-9, period, dash
or underscore. -/
def isValidCtxNameChar (c : Char) : Bool :=
  ('A' ≤ c && c ≤ 'Z') || ('a' ≤ c && c ≤ 'z') || ('0' ≤ c && c ≤ '9') ||
    c = '.' || c = '-' || c = '_'

/-- Embedding of `PrvValidateContextName` (PmLogLib.c lines 1360-1405): the
two reserved names are always valid; otherwise the length must lie in 1..31
and every character must be allowed. -/
def PrvValidateContextName (contextName : List Char) : PmLogErr :=
  if contextName = kPmLogGlobalContextName then PmLogErr.None
  else if contextName = kPmLogDefaultLibContextName then PmLogErr.None
  else
    if contextName.length < 1 ∨ PMLOG_MAX_CONTEXT_NAME_LEN < contextName.length then
      PmLogErr.InvalidContextName
    else if contextName.all isValidCtxNameChar then PmLogErr.None
    else PmLogErr.InvalidContextName

/-- Handle to a slot of the registry.  The original exports the address of the
public info sub-record of a context; contexts are never moved or freed, so a
slot reference is a faithful rendering of that pointer. -/
inductive CtxRef where
  | global
  | user (i : Nat)
deriving DecidableEq, Repr

/-- First index of a user context whose component equals the name, mirroring
the linear scan order of the original. -/
def findUserIdx : List PmLogContext_ → List Char → Option Nat
  | [], _ => none
  | c :: rest, name =>
    if name = c.component then some 0
    else (findUserIdx rest name).map (· + 1)

/-- The scan loop shared by `PmLogGetContext` and `PmLogFindContext`
(`for i = -1 .. numUserContexts-1`): the global context is tested first,
then the user contexts in creation order. -/
def scanForName (g : PmLogGlobals) (name : List Char) : Option CtxRef :=
  if name = g.globalContext.component then some CtxRef.global
  else (findUserIdx g.userContexts name).map CtxRef.user

/-- Truncation step of `PrvGetContextDefaults` (`strrchr(parent, '.')`
followed by `*s = 0`): the part of the name standing before its last period,
or `none` when the name holds no period. -/
def trimLastSegment : List Char → Option (List Char)
  | [] => none
  | c :: rest =>
    match trimLastSegment rest with
    | some p => some (c :: p)
    | none => if c = '.' then some [] else none

/-- Each truncation step strictly shortens the name. -/
theorem trimLastSegment_length :
    ∀ {s p : List Char}, trimLastSegment s = some p → p.length < s.length := by
  intro s
  induction s with
  | nil => intro p h; simp [trimLastSegment] at h
  | cons c rest ih =>
    intro p h
    simp only [trimLastSegment] at h
    cases hr : trimLastSegment rest with
    | some q =>
      rw [hr] at h
      cases h
      simpa using Nat.succ_lt_succ (ih hr)
    | none =>
      rw [hr] at h
      by_cases hc : c = '.'
      · simp [hc] at h
        cases h
        simp
      · simp [hc] at h

/-- First user context whose component equals the name, returning its public
info (the inner scan of `PrvGetContextDefaults`, which walks only the user
contexts). -/
def findUserInfo : List PmLogContext_ → List Char → Option PmLogContextInfo
  | [], _ => none
  | c :: rest, name =>
    if name = c.component then some c.info else findUserInfo rest name

/-- Outer loop of `PrvGetContextDefaults`: repeatedly trim the last
period-delimited segment; the first user context matching the remaining
parent supplies the defaults; with no period left the global context does. -/
def ctxDefaultsLoop (g : PmLogGlobals) (parent : List Char) : PmLogContextInfo :=
  match h : trimLastSegment parent with
  | none => g.globalContext.info
  | some p =>
    match findUserInfo g.userContexts p with
    | some info => info
    | none => ctxDefaultsLoop g p
termination_by parent.length
decreasing_by exact trimLastSegment_length h

/-- Embedding of `PrvGetContextDefaults` (PmLogLib.c lines 1566-1605).  The
original first copies the name into a 32-byte scratch buffer via `mystrcpy`,
truncating it to 31 characters. -/
def PrvGetContextDefaults (g : PmLogGlobals) (contextName : List Char) : PmLogContextInfo :=
  ctxDefaultsLoop g (contextName.take PMLOG_MAX_CONTEXT_NAME_LEN)

/-- Specification-side reading of the hierarchical-defaults rule, first
half, with an explicit recursion budget: each strip strictly shortens the
name, so any budget at least the length of the name is enough and the
exhausted-budget branch is unreachable from `ancestorChain`. -/
def ancestorChainAux : Nat → List Char → List (List Char)
  | 0, _ => []
  | fuel + 1, name =>
    match trimLastSegment name with
    | none => []
    | some p => p :: ancestorChainAux fuel p

/-- Specification-side reading of the hierarchical-defaults rule, first
half: the chain of proper ancestors of a name, nearest first, obtained by
repeatedly stripping the last period-delimited segment. -/
def ancestorChain (name : List Char) : List (List Char) :=
  ancestorChainAux name.length name

/-- Specification-side reading of the hierarchical-defaults rule, second
half: the first ancestor of the chain registered among the user contexts
supplies the level and flags; when no ancestor matches — in particular when
the chain is empty — the global context does. -/
def firstAncestorHit (g : PmLogGlobals) : List (List Char) → PmLogContextInfo
  | [] => g.globalContext.info
  | p :: rest =>
    match findUserInfo g.userContexts p with
    | some info => info
    | none => firstAncestorHit g rest

/-- Specification-side hierarchical defaults: the settings of the nearest
existing ancestor of the name, skipping missing intermediate ancestors, and
those of the global context when no ancestor exists. -/
def nearestAncestorInfo (g : PmLogGlobals) (name : List Char) : PmLogContextInfo :=
  firstAncestorHit g (ancestorChain name)

/-- Result of `PmLogGetContext`: the error code, the handle stored through
`pContext` (`none` renders the NULL pointer), and the registry after the
call. -/
structure GetContextResult where
  err : PmLogErr
  handle : Option CtxRef
  globals : PmLogGlobals
deriving DecidableEq, Repr

/-- Embedding of `PmLogGetContext` (PmLogLib.c lines 1629-1731) for an
attached, healthy registry (`gGlobalsP` non-NULL) and a non-NULL `pContext`.
A NULL name yields the global context at once.  After validation the table is
scanned; a miss with free capacity appends a context whose component is the
(truncated) name and whose info comes from `PrvGetContextDefaults` — which
the original calls after the append, so the defaults scan here runs on the
registry with the fresh slot already present, its info not yet assigned
(rendered by a scratch value; the ancestor scan can never read it, as proved
below).  A miss with the table full leaves the registry unchanged and falls
through to the final fallback, which stores the global handle and returns the
error code still holding `None`. -/
def PmLogGetContext (g : PmLogGlobals) (contextName : Option (List Char)) : GetContextResult :=
  match contextName with
  | none => ⟨PmLogErr.None, some CtxRef.global, g⟩
  | some name =>
    let v := PrvValidateContextName name
    if v ≠ PmLogErr.None then ⟨v, none, g⟩
    else
      match scanForName g name with
      | some ref => ⟨PmLogErr.None, some ref, g⟩
      | none =>
        if g.maxUserContexts ≤ g.userContexts.length then
          ⟨PmLogErr.None, some CtxRef.global, g⟩
        else
          let component := name.take PMLOG_MAX_CONTEXT_NAME_LEN
          let scratchCtx : PmLogContext_ := ⟨⟨0, 0⟩, component⟩
          let g1 : PmLogGlobals := { g with userContexts := g.userContexts ++ [scratchCtx] }
          let defaults := PrvGetContextDefaults g1 name
          let newCtx : PmLogContext_ := ⟨defaults, component⟩
          ⟨PmLogErr.None, some (CtxRef.user g.userContexts.length),
            { g with userContexts := g.userContexts ++ [newCtx] }⟩

/-- Result of `PmLogFindContext`: the error code and the handle stored
through `pContext`. -/
structure FindContextResult where
  err : PmLogErr
  handle : Option CtxRef
deriving DecidableEq, Repr

/-- Embedding of `PmLogFindContext` (PmLogLib.c lines 1491-1555) for an
attached, healthy registry and a non-NULL `pContext`: the read-only variant
of the scan; it never mutates the registry. -/
def PmLogFindContext (g : PmLogGlobals) (contextName : Option (List Char)) : FindContextResult :=
  match contextName with
  | none => ⟨PmLogErr.InvalidParameter, none⟩
  | some name =>
    let v := PrvValidateContextName name
    if v ≠ PmLogErr.None then ⟨v, none⟩
    else
      match scanForName g name with
      | some ref => ⟨PmLogErr.None, some ref⟩
      | none => ⟨PmLogErr.ContextNotFound, none⟩

/-- Embedding of `PrvResolveContext` (PmLogLib.c lines 688-691): a NULL
public handle resolves to the global context, any other handle to the context
holding the referenced info record.  A dangling slot index (which the
original API cannot produce) resolves to `none`. -/
def PrvResolveContext (g : PmLogGlobals) : Option CtxRef → Option PmLogContext_
  | none => some g.globalContext
  | some CtxRef.global => some g.globalContext
  | some (CtxRef.user i) => g.userContexts[i]?

/-- Embedding of `PrvIsValidLevel` (PmLogLib.c lines 1338-1350). -/
def PrvIsValidLevel (level : Int) : Bool :=
  kPmLogLevel_Emergency ≤ level && level ≤ kPmLogLevel_Debug

/-- Embedding of `PrvCheckContext` (PmLogLib.c lines 1979-1996): validate the
requested level, then compare it against the enabled level of the context. -/
def PrvCheckContext (contextP : PmLogContext_) (level : Int) : PmLogErr :=
  if !(PrvIsValidLevel level) then PmLogErr.InvalidLevel
  else if level > contextP.info.enabledLevel then PmLogErr.LevelDisabled
  else PmLogErr.None

/-- Size of the fixed line buffers (`BUFFER_LEN`, PmLogLib.c line 111). -/
def BUFFER_LEN : Nat := 1024

/-- Fixed message id substituted for debug-level dispatch (`DEBUG_MSG_ID`,
PmLogLib.c line 86). -/
def DEBUG_MSG_ID : List Char := "DBGMSG".toList

/-- The key separator of the counted key-value call variant (`SOH`,
PmLogLib.c line 2386): the ASCII start-of-heading character. -/
def SOH : Char := '\x01'

/-- Character scan of `validate_keys` (PmLogLib.c lines 2405-2426): separator
characters are skipped, non-printable characters are rejected, a backslash
must be followed by a quote or a second backslash. -/
def validKeysScan : List Char → Bool
  | [] => true
  | c :: rest =>
    if c = SOH then validKeysScan rest
    else if c.toNat < 0x20 || 0x7f ≤ c.toNat then false
    else if c = '\\' then
      match rest with
      | [] => false
      | d :: rest2 => if d = '"' || d = '\\' then validKeysScan rest2 else false
    else validKeysScan rest

/-- Embedding of `validate_keys` (PmLogLib.c lines 2387-2429): a NULL key
list or a zero count is rejected, then the characters are scanned.  The
per-key counter of the original feeds only its diagnostics and is omitted;
the number of separator-delimited keys is never compared with anything. -/
def validate_keys (kv_count : Nat) (check_keywords : Option (List Char)) : Bool :=
  match check_keywords with
  | none => false
  | some ks => if kv_count = 0 then false else validKeysScan ks

/-- Conversion counting of `validate_format`: the number of percent signs in
the format, a doubled percent counting as a literal. -/
def countConversions : List Char → Nat
  | [] => 0
  | '%' :: '%' :: rest => countConversions rest
  | '%' :: rest => countConversions rest + 1
  | _ :: rest => countConversions rest

/-- Modelled from the spec: the with-clock call-variant flag
(`kPmLogValidateFormatFlag_LogWithClock`, defined in the missing header);
the concrete bit is immaterial to the claims. -/
def kPmLogValidateFormatFlag_LogWithClock : Nat := 1

/-- Embedding of `validate_format` (PmLogLib.c lines 2431-2462): a NULL
format or a zero count is rejected; otherwise the count argument — plus one
for the with-clock variant — must equal the number of conversions. -/
def validate_format (flags : Nat) (kv_count : Nat) (format : Option (List Char)) : Bool :=
  match format with
  | none => false
  | some f =>
    if kv_count = 0 then false
    else if flags &&& kPmLogValidateFormatFlag_LogWithClock ≠ 0 then
      kv_count + 1 == countConversions f
    else kv_count == countConversions f

/-- Index of the first occurrence of a pattern in a string (`strstr`). -/
def strstrIdx (pat : List Char) : List Char → Option Nat
  | [] => if pat.isPrefixOf ([] : List Char) then some 0 else none
  | c :: rest =>
    if pat.isPrefixOf (c :: rest) then some 0
    else (strstrIdx pat rest).map (· + 1)

/-- Search string of `validate_json_string`: the closing brace, followed by a
space for the with-trailing call variant. -/
def vjsSearchStr (with_tailing : Bool) : List Char :=
  if with_tailing then "\x7d ".toList else "\x7d".toList

/-- Increment past a candidate boundary (`move_index`). -/
def vjsMoveIndex (with_tailing : Bool) : Nat := if with_tailing then 2 else 1

/-- Loop of `validate_json_string` (PmLogLib.c lines 2166-2194): scan for
successive boundary occurrences; a boundary past the 1024-byte scratch buffer
yields `TooMuchData`; the prefix up to the boundary is offered to the JSON
parser (`jsax_parse` of the external pbnjson library, rendered by the `jsax`
parameter); the first prefix that parses wins.  `consumed` is the offset of
`remaining` inside `kvpairs`. -/
def vjsLoop (jsax : List Char → Bool) (kvpairs : List Char) (with_tailing : Bool)
    (errIn : PmLogErr) (consumed : Nat) (remaining : List Char) : Bool × PmLogErr :=
  match h : strstrIdx (vjsSearchStr with_tailing) remaining with
  | none => (false, errIn)
  | some idx =>
    let next_brace_pos := consumed + idx + vjsMoveIndex with_tailing
    if BUFFER_LEN - 1 < next_brace_pos then (false, PmLogErr.TooMuchData)
    else if jsax (kvpairs.take next_brace_pos) then (true, errIn)
    else vjsLoop jsax kvpairs with_tailing errIn (consumed + idx + vjsMoveIndex with_tailing)
      (remaining.drop (idx + vjsMoveIndex with_tailing))
termination_by remaining.length
decreasing_by
  simp only [List.length_drop]
  have hmi : 1 ≤ vjsMoveIndex with_tailing := by
    cases with_tailing <;> simp [vjsMoveIndex]
  have hne : remaining ≠ [] := by
    intro he
    subst he
    cases with_tailing <;> simp [strstrIdx, vjsSearchStr, List.isPrefixOf] at h
  have hlen : 0 < remaining.length := List.length_pos.mpr hne
  omega

/-- Embedding of `validate_json_string` (PmLogLib.c lines 2141-2199),
parameterized by the external JSON parser.  The error output is written only
on the too-much-data exit; otherwise the caller-supplied value persists. -/
def validate_json_string (jsax : List Char → Bool) (kvpairs : List Char)
    (errIn : PmLogErr) (with_tailing : Bool) : Bool × PmLogErr :=
  vjsLoop jsax kvpairs with_tailing errIn 0 kvpairs

/-- Embedding of the error-code behavior of `PmLogString_` (PmLogLib.c lines
2207-2302), parameterized by the external JSON parser.  The context argument
is the already-resolved record.  Modelled exits, in source order: the enabled
check; for non-debug levels the message-id validation (`InvalidMsgID`
returned at once, `EmptyMsgID` kept in `logErr`), then the embedded-JSON
validation of the key-value text (`InvalidFormat` on failure); for
the debug level `InvalidFormat` whenever a message id or key-value text is
present or the free text is NULL; then — after the line assembly, whose
`snprintf` cannot fail on the total strings of this model — `InvalidFormat`
when `logErr` holds `EmptyMsgID`; finally the dispatch, which returns
`None`. -/
def PmLogString_ (jsax : List Char → Bool) (contextP : PmLogContext_) (level : Int)
    (msgid : Option (List Char)) (kvpairs : Option (List Char))
    (message : Option (List Char)) : PmLogErr :=
  let err0 := PrvCheckContext contextP level
  if err0 ≠ PmLogErr.None then err0
  else if level ≠ kPmLogLevel_Debug then
    let logErr := validate_msgid msgid
    if logErr = PmLogErr.InvalidMsgID then PmLogErr.InvalidMsgID
    else
      let jsonOk :=
        match kvpairs with
        | some kv => (validate_json_string jsax kv logErr false).1
        | none => true
      if !jsonOk then PmLogErr.InvalidFormat
      else if logErr = PmLogErr.EmptyMsgID then PmLogErr.InvalidFormat
      else PmLogErr.None
  else
    if msgid.isSome then PmLogErr.InvalidFormat
    else if kvpairs.isSome then PmLogErr.InvalidFormat
    else if message.isNone then PmLogErr.InvalidFormat
    else PmLogErr.None

/-- Embedding of the error-code behavior of `_PmLogMsgKV` (PmLogLib.c lines
2464-2592), parameterized by the external JSON parser and by `fmtResult`,
the text the external variadic `vsnprintf` produces from the format and its
arguments.  Modelled exits, in source order: the enabled check; for
non-debug levels the message-id validation, then — only for a non-zero
`kv_count` — the key-list and format/count agreement checks; for the debug
level the message-id and key-value-count absence checks; the line assembly
(an empty key-value prefix is prepended when the count is zero, and the
1024-byte buffer truncates); the `EmptyMsgID` mapping to `InvalidFormat`;
the embedded-JSON validation of the assembled line for a non-zero count; the
dispatch, which returns `None`. -/
def _PmLogMsgKV (jsax : List Char → Bool) (contextP : PmLogContext_) (level : Int)
    (flags : Nat) (msgid : Option (List Char)) (kv_count : Nat)
    (check_keywords : Option (List Char)) (check_formats : Option (List Char))
    (fmtResult : List Char) : PmLogErr :=
  let err0 := PrvCheckContext contextP level
  if err0 ≠ PmLogErr.None then err0
  else
    let err :=
      if level ≠ kPmLogLevel_Debug then validate_msgid msgid else PmLogErr.None
    if level ≠ kPmLogLevel_Debug ∧ err = PmLogErr.InvalidMsgID then PmLogErr.InvalidMsgID
    else if level ≠ kPmLogLevel_Debug ∧ kv_count ≠ 0 ∧
        validate_keys kv_count check_keywords = false then PmLogErr.InvalidFormat
    else if level ≠ kPmLogLevel_Debug ∧ kv_count ≠ 0 ∧
        validate_format flags kv_count check_formats = false then PmLogErr.InvalidFormat
    else if level = kPmLogLevel_Debug ∧ msgid.isSome then PmLogErr.InvalidFormat
    else if level = kPmLogLevel_Debug ∧ kv_count ≠ 0 then PmLogErr.InvalidFormat
    else
      let final_str :=
        if kv_count = 0 then "\x7b\x7d ".toList ++ fmtResult.take (BUFFER_LEN - 4)
        else fmtResult.take (BUFFER_LEN - 1)
      if err = PmLogErr.EmptyMsgID then PmLogErr.InvalidFormat
      else if level ≠ kPmLogLevel_Debug ∧ kv_count ≠ 0 then
        if (validate_json_string jsax final_str err true).1 = false then PmLogErr.InvalidFormat
        else PmLogErr.None
      else PmLogErr.None

/-- Ambient process state threaded through the dispatch path: the `errno`
value, the lines handed to the syslog sink, and the two console streams. -/
structure World where
  errno : Int
  syslogLines : List (Int × List Char)
  errStream : List (List Char)
  outStream : List (List Char)
deriving DecidableEq, Repr

/-- Modelled from the spec: the facility identifier prepended to every
dispatched line (`PMLOG_IDENTIFIER`, defined in the missing header). -/
def PMLOG_IDENTIFIER : List Char := "pmlog".toList

/-- Line handed to the syslog sink by `PrvLogWrite`
(`"%s %s %s %s %s"` of pid/tid tag, identifier, component, message id —
empty for NULL — and text). -/
def mkSyslogLine (ptidStr component : List Char) (msgid : Option (List Char))
    (s : List Char) : List Char :=
  ptidStr ++ ' ' :: PMLOG_IDENTIFIER ++ ' ' :: component ++ ' ' :: msgid.getD [] ++ ' ' :: s

/-- Line written to a console stream by `PrvLogToConsole` (PmLogLib.c lines
2004-2022): ident, pid/tid tag, component and text, with a newline appended
only when the text does not already end in one. -/
def mkConsoleLine (identStr ptidStr component s : List Char) : List Char :=
  identStr ++ ptidStr ++ component ++ s ++
    (if s.getLast? = some '\n' then [] else ['\n'])

/-- Command prefix of the private control channel (`kLogLibCmdPrefix`). -/
def kLogLibCmdPfx : List Char := "!loglib ".toList

/-- Interception test of `HandleLogLibCommand` (PmLogLib.c lines 2028-2075):
true exactly when the message starts with the command prefix and the
remainder is the `loadconf` command — the only command — in which case the
configuration reload runs instead of logging.  The reload work itself
(config-file parsing, flag re-propagation) is an external effect rendered by
a parameter of `PrvLogWrite`. -/
def isLogLibLoadConf (s : List Char) : Bool :=
  kLogLibCmdPfx.isPrefixOf s && s.drop 8 == "loadconf".toList

/-- Embedding of `PrvLogWrite` (PmLogLib.c lines 2082-2139).  Behavior the C
runtime supplies is passed in as parameters: `reloadEff`, `sysEff`, `errEff`
and `outEff` are the arbitrary further effects of the config reload, the
syslog sink and the two console stream writes on the ambient state — in
particular each may clobber `errno`; `identStr` is `__progname` and
`ptidStr` the pid/tid tag `GetPidStr` renders from the process identity.
The function saves `errno` on entry and writes it back on every exit path,
including the intercepted-command exit. -/
def PrvLogWrite (cc : PmLogConsole)
    (reloadEff sysEff errEff outEff : World → World)
    (identStr ptidStr : List Char)
    (contextP : PmLogContext_) (level : Int) (msgid : Option (List Char))
    (s : List Char) (w : World) : PmLogErr × World :=
  let savedErrNo := w.errno
  let wExit :=
    if isLogLibLoadConf s then reloadEff w
    else
      let componentStr := contextP.component.take (1 + PMLOG_MAX_CONTEXT_NAME_LEN + 3)
      let line := mkSyslogLine ptidStr componentStr msgid s
      let w1 := sysEff { w with syslogLines := w.syslogLines ++ [(level, line)] }
      if contextP.info.flags &&& kPmLogFlag_LogToConsole ≠ 0 then
        let ptid2 := if ptidStr = [] then ": ".toList else ptidStr
        let w2 :=
          if cc.stdErrMinLevel ≤ level ∧ level ≤ cc.stdErrMaxLevel then
            errEff { w1 with
              errStream := w1.errStream ++ [mkConsoleLine identStr ptid2 componentStr s] }
          else w1
        if cc.stdOutMinLevel ≤ level ∧ level ≤ cc.stdOutMaxLevel then
          outEff { w2 with
            outStream := w2.outStream ++ [mkConsoleLine identStr ptid2 componentStr s] }
        else w2
      else w1
  (PmLogErr.None, { wExit with errno := savedErrNo })

/-- Modelled from the spec: the `LEGACY_LOG` context name, a constant of the
missing private header.  Its exact spelling is immaterial here: every claim
about it is conditioned on `PmLogGetContext` succeeding for it. -/
def LEGACY_LOG : List Char := "LEGACY".toList

/-- Result of a free-text print entry point: the returned error code, the
context record actually used for the enabled check and the dispatched line
(`none` when handle resolution failed), and the registry after the call
(obtaining the LEGACY_LOG context may create it). -/
structure PrintResult where
  err : PmLogErr
  used : Option PmLogContext_
  globals : PmLogGlobals
deriving DecidableEq, Repr

/-- Embedding of `PmLogPrint_` (PmLogLib.c lines 2350-2383) composed with
`PrvLogVPrint` (lines 2309-2342), tracking which context is used: the entry
point first obtains the LEGACY_LOG context and, when that succeeds, replaces
the caller-supplied handle with it; the enabled check and the write then run
on the replacement.  `fmt = none` renders a NULL format pointer; an empty
format is rejected, as in `PrvLogVPrint`; the formatted write itself returns
`None` through `PrvLogWrite`. -/
def PmLogPrint_ (g : PmLogGlobals) (context : Option CtxRef) (level : Int)
    (fmt : Option (List Char)) : PrintResult :=
  let r := PmLogGetContext g (some LEGACY_LOG)
  let forced := if r.err = PmLogErr.None then r.handle else context
  match PrvResolveContext r.globals forced with
  | none => ⟨PmLogErr.InvalidContext, none, r.globals⟩
  | some contextP =>
    let err := PrvCheckContext contextP level
    if err ≠ PmLogErr.None then ⟨err, some contextP, r.globals⟩
    else
      match fmt with
      | none => ⟨PmLogErr.InvalidFormat, some contextP, r.globals⟩
      | some f =>
        if f = [] then ⟨PmLogErr.InvalidFormat, some contextP, r.globals⟩
        else ⟨PmLogErr.None, some contextP, r.globals⟩

/-- Embedding of `PmLogVPrint_` (PmLogLib.c lines 2609-2637) composed with
`PrvLogVPrint`: identical in structure to `PmLogPrint_`, the variadic
arguments having already been captured by the caller. -/
def PmLogVPrint_ (g : PmLogGlobals) (context : Option CtxRef) (level : Int)
    (fmt : Option (List Char)) : PrintResult :=
  let r := PmLogGetContext g (some LEGACY_LOG)
  let forced := if r.err = PmLogErr.None then r.handle else context
  match PrvResolveContext r.globals forced with
  | none => ⟨PmLogErr.InvalidContext, none, r.globals⟩
  | some contextP =>
    let err := PrvCheckContext contextP level
    if err ≠ PmLogErr.None then ⟨err, some contextP, r.globals⟩
    else
      match fmt with
      | none => ⟨PmLogErr.InvalidFormat, some contextP, r.globals⟩
      | some f =>
        if f = [] then ⟨PmLogErr.InvalidFormat, some contextP, r.globals⟩
        else ⟨PmLogErr.None, some contextP, r.globals⟩

/-! Concrete fixtures used by the witnesses. -/

/-- Concrete global context used by witnesses. -/
def wGlobalCtx : PmLogContext_ := ⟨⟨6, 0⟩, kPmLogGlobalContextName⟩

/-- Concrete console configuration used by witnesses. -/
def wConsole : PmLogConsole := ⟨0, 3, 4, 7⟩

/-- Concrete registry whose single user slot is taken (capacity 1). -/
def wFullGlobals : PmLogGlobals := ⟨1, wConsole, wGlobalCtx, [⟨⟨3, 0⟩, ['A']⟩]⟩

/-- Concrete registry with free capacity holding one context `A` with level 3
and flags 9, while the global context has level 6 and flags 0. -/
def wFreeGlobals : PmLogGlobals := ⟨4, wConsole, wGlobalCtx, [⟨⟨3, 9⟩, ['A']⟩]⟩

/-- Concrete registry already holding the LEGACY_LOG context. -/
def wLegacyGlobals : PmLogGlobals := ⟨4, wConsole, wGlobalCtx, [⟨⟨6, 0⟩, LEGACY_LOG⟩]⟩

/-- Concrete context with every level enabled, used by pipeline witnesses. -/
def wTestCtx : PmLogContext_ := ⟨⟨7, 0⟩, ['T', 'S', 'T']⟩

/-! Claim theorems. -/

/-- Claim C1 (code bug in the length rule): `validate_msgid` is documented —
in its own header comment and in the spec — to accept exactly the message
ids of length < 32 over the allowed characters, but its length guard sits
inside the character loop and fires before each character, so the loop ends
at the NUL of a 32-character id without the guard ever seeing the count 32:
a 31-character id is accepted, a 32-character id is also accepted, and only
from 33 characters on is an id rejected. -/
theorem claim_C1_msgid_length_off_by_one :
    validate_msgid (some (List.replicate 31 'a')) = PmLogErr.None ∧
    validate_msgid (some (List.replicate 32 'a')) = PmLogErr.None ∧
    validate_msgid (some (List.replicate 33 'a')) = PmLogErr.InvalidMsgID := by
  decide

/-- Claim C4: the enabled check returns `InvalidLevel` exactly when the
requested level lies outside the emergency..debug range (in particular the
level-none sentinel -1 is never itself enabled), `LevelDisabled` when the
level is numerically greater than the enabled level of the context, and
`None` otherwise; with threshold warning an info call is disabled and an
error call passes. -/
theorem claim_C4_level_gating :
    (∀ (enabledLevel : Int) (flags : Nat) (component : List Char) (level : Int),
      PrvCheckContext ⟨⟨enabledLevel, flags⟩, component⟩ level =
        if level < kPmLogLevel_Emergency ∨ kPmLogLevel_Debug < level then PmLogErr.InvalidLevel
        else if enabledLevel < level then PmLogErr.LevelDisabled
        else PmLogErr.None) ∧
    PrvCheckContext ⟨⟨kPmLogLevel_Warning, 0⟩, []⟩ kPmLogLevel_Info = PmLogErr.LevelDisabled ∧
    PrvCheckContext ⟨⟨kPmLogLevel_Warning, 0⟩, []⟩ kPmLogLevel_Error = PmLogErr.None ∧
    PrvCheckContext ⟨⟨kPmLogLevel_Warning, 0⟩, []⟩ kPmLogLevel_None = PmLogErr.InvalidLevel := by
  refine ⟨?_, by decide, by decide, by decide⟩
  intro enabledLevel flags component level
  simp only [PrvCheckContext, PrvIsValidLevel, kPmLogLevel_Emergency, kPmLogLevel_Debug,
    gt_iff_lt, Bool.not_eq_true', Bool.and_eq_false_iff, decide_eq_false_iff_not, not_le,
    Bool.and_eq_true, decide_eq_true_eq]

/-- Claim C8: `PrvLogWrite` leaves `errno` at its entry value on every path —
the intercepted-command path, the plain syslog path and the console-mirror
paths — whatever further effects the external sinks have on the ambient
state. -/
theorem claim_C8_errno_transparent (cc : PmLogConsole)
    (reloadEff sysEff errEff outEff : World → World) (identStr ptidStr : List Char)
    (contextP : PmLogContext_) (level : Int) (msgid : Option (List Char))
    (s : List Char) (w : World) :
    ((PrvLogWrite cc reloadEff sysEff errEff outEff identStr ptidStr
        contextP level msgid s w).2).errno = w.errno :=
  rfl

/-- Helper: with the table full and the name unmatched, `PmLogGetContext`
falls through to the final fallback, storing the global handle, returning
the error variable still holding `None`, and leaving the registry
untouched. -/
theorem getContext_full_fallback (g : PmLogGlobals) (name : List Char)
    (hvalid : PrvValidateContextName name = PmLogErr.None)
    (hmiss : scanForName g name = none)
    (hfull : g.maxUserContexts ≤ g.userContexts.length) :
    PmLogGetContext g (some name) = ⟨PmLogErr.None, some CtxRef.global, g⟩ := by
  simp [PmLogGetContext, hvalid, hmiss, hfull]

/-- Claim C2: with `numUserContexts` equal to `maxUserContexts`, a
`PmLogGetContext` call with a valid name matching no existing context
returns the global-context handle with no error and leaves the registry —
count, names, levels and flags of every context — exactly as it was. -/
theorem claim_C2_capacity_fallback (g : PmLogGlobals) (name : List Char)
    (hfull : g.userContexts.length = g.maxUserContexts)
    (hvalid : PrvValidateContextName name = PmLogErr.None)
    (hmiss : scanForName g name = none) :
    PmLogGetContext g (some name) = ⟨PmLogErr.None, some CtxRef.global, g⟩ :=
  getContext_full_fallback g name hvalid hmiss (le_of_eq hfull.symm)

/-- Witness for claim C2: a concrete registry at capacity and the fresh
valid name `B`. -/
theorem claim_C2_capacity_fallback_witness :
    wFullGlobals.userContexts.length = wFullGlobals.maxUserContexts ∧
    PrvValidateContextName ['B'] = PmLogErr.None ∧
    scanForName wFullGlobals ['B'] = none ∧
    PmLogGetContext wFullGlobals (some ['B']) =
      ⟨PmLogErr.None, some CtxRef.global, wFullGlobals⟩ :=
  ⟨by decide, by decide, by decide,
    claim_C2_capacity_fallback wFullGlobals ['B'] (by decide) (by decide) (by decide)⟩

/-- Claim C10: the capacity-exhausted fallback of `PmLogGetContext` reports
success — the stored handle is the global context and the returned code is
`None`, never `TooManyContexts`, so the caller cannot tell the fallback from
a genuine lookup by the return code. -/
theorem claim_C10_capacity_reports_success (g : PmLogGlobals) (name : List Char)
    (hfull : g.maxUserContexts ≤ g.userContexts.length)
    (hvalid : PrvValidateContextName name = PmLogErr.None)
    (hmiss : scanForName g name = none) :
    (PmLogGetContext g (some name)).err = PmLogErr.None ∧
    (PmLogGetContext g (some name)).err ≠ PmLogErr.TooManyContexts ∧
    (PmLogGetContext g (some name)).handle = some CtxRef.global := by
  rw [getContext_full_fallback g name hvalid hmiss hfull]
  refine ⟨rfl, ?_, rfl⟩
  intro h
  exact PmLogErr.noConfusion h

/-- Witness for claim C10: the concrete full registry and the fresh valid
name `C`. -/
theorem claim_C10_capacity_reports_success_witness :
    (PmLogGetContext wFullGlobals (some ['C'])).err = PmLogErr.None ∧
    (PmLogGetContext wFullGlobals (some ['C'])).err ≠ PmLogErr.TooManyContexts ∧
    (PmLogGetContext wFullGlobals (some ['C'])).handle = some CtxRef.global :=
  claim_C10_capacity_reports_success wFullGlobals ['C'] (by decide) (by decide) (by decide)

/-- Helper: a name that is non-empty, bounded by 31 and drawn from the
allowed character set passes `PrvValidateContextName`. -/
theorem validName_of_charset (name : List Char) (h1 : 1 ≤ name.length)
    (h2 : name.length ≤ PMLOG_MAX_CONTEXT_NAME_LEN)
    (h3 : name.all isValidCtxNameChar = true) :
    PrvValidateContextName name = PmLogErr.None := by
  unfold PrvValidateContextName
  by_cases hg : name = kPmLogGlobalContextName
  · rw [if_pos hg]
  · rw [if_neg hg]
    by_cases hl : name = kPmLogDefaultLibContextName
    · rw [if_pos hl]
    · rw [if_neg hl, if_neg (by omega), if_pos h3]

/-- Helper: a non-reserved name violating the length or character rule is
rejected with `InvalidContextName`. -/
theorem invalidName_of_charset (name : List Char)
    (hg : name ≠ kPmLogGlobalContextName) (hl : name ≠ kPmLogDefaultLibContextName)
    (h : name.length < 1 ∨ PMLOG_MAX_CONTEXT_NAME_LEN < name.length ∨
      ¬ name.all isValidCtxNameChar = true) :
    PrvValidateContextName name = PmLogErr.InvalidContextName := by
  unfold PrvValidateContextName
  rw [if_neg hg, if_neg hl]
  rcases h with h | h | h
  · rw [if_pos (Or.inl h)]
  · rw [if_pos (Or.inr h)]
  · by_cases hlen : name.length < 1 ∨ PMLOG_MAX_CONTEXT_NAME_LEN < name.length
    · rw [if_pos hlen]
    · rw [if_neg hlen, if_neg h]

/-- Helper: a name passing `PrvValidateContextName` is at most 31 characters
long (the reserved names are themselves short). -/
theorem validName_length (name : List Char)
    (h : PrvValidateContextName name = PmLogErr.None) :
    name.length ≤ PMLOG_MAX_CONTEXT_NAME_LEN := by
  unfold PrvValidateContextName at h
  by_cases hg : name = kPmLogGlobalContextName
  · subst hg; decide
  · rw [if_neg hg] at h
    by_cases hl : name = kPmLogDefaultLibContextName
    · subst hl; decide
    · rw [if_neg hl] at h
      by_cases hlen : name.length < 1 ∨ PMLOG_MAX_CONTEXT_NAME_LEN < name.length
      · rw [if_pos hlen] at h
        exact absurd h (by decide)
      · omega

/-- Helper: appending one context to a table the scan misses makes the scan
find it exactly at the appended slot when the name matches. -/
theorem findUserIdx_append_none (us : List PmLogContext_) (c : PmLogContext_)
    (name : List Char) (h : findUserIdx us name = none) :
    findUserIdx (us ++ [c]) name =
      if name = c.component then some us.length else none := by
  induction us with
  | nil =>
    simp only [List.nil_append, findUserIdx, List.length_nil]
    by_cases hc : name = c.component <;> simp [hc]
  | cons u rest ih =>
    simp only [findUserIdx] at h
    by_cases hu : name = u.component
    · rw [if_pos hu] at h; exact absurd h (by simp)
    · rw [if_neg hu] at h
      have hrest : findUserIdx rest name = none := by
        cases hr : findUserIdx rest name
        · rfl
        · rw [hr] at h; exact absurd h (by simp)
      rw [List.cons_append]
      simp only [findUserIdx, if_neg hu]
      rw [ih hrest]
      by_cases hc : name = c.component
      · rw [if_pos hc, if_pos hc]
        simp
      · rw [if_neg hc, if_neg hc]
        simp

/-- Helper: under free capacity `PmLogGetContext` succeeds and a scan of the
resulting registry finds the very handle it returned. -/
theorem getContext_then_scan (g : PmLogGlobals) (name : List Char)
    (hvalid : PrvValidateContextName name = PmLogErr.None)
    (hcap : g.userContexts.length < g.maxUserContexts) :
    (PmLogGetContext g (some name)).err = PmLogErr.None ∧
    ∃ ref, (PmLogGetContext g (some name)).handle = some ref ∧
      scanForName (PmLogGetContext g (some name)).globals name = some ref := by
  cases hscan : scanForName g name with
  | some ref =>
    refine ⟨by simp [PmLogGetContext, hvalid, hscan], ref, ?_, ?_⟩ <;>
      simp [PmLogGetContext, hvalid, hscan]
  | none =>
    have hnotfull : ¬ g.maxUserContexts ≤ g.userContexts.length := by omega
    have hcomp : name.take PMLOG_MAX_CONTEXT_NAME_LEN = name :=
      List.take_of_length_le (validName_length name hvalid)
    have hg : ¬ name = g.globalContext.component := by
      intro he
      simp [scanForName, he] at hscan
    have hfind : findUserIdx g.userContexts name = none := by
      unfold scanForName at hscan
      rw [if_neg hg] at hscan
      cases hr : findUserIdx g.userContexts name
      · rfl
      · rw [hr] at hscan; exact absurd hscan (by simp)
    refine ⟨by simp [PmLogGetContext, hvalid, hscan, hnotfull],
      CtxRef.user g.userContexts.length, ?_, ?_⟩
    · simp [PmLogGetContext, hvalid, hscan, hnotfull]
    · simp only [PmLogGetContext, hvalid, hscan, hnotfull]
      simp only [ne_eq, not_true_eq_false, if_false, if_neg hnotfull]
      unfold scanForName
      simp only [hcomp]
      rw [if_neg hg, findUserIdx_append_none g.userContexts _ name hfind]
      simp [hcomp]

/-- Claim C7: for a valid name (non-empty, at most 31 characters over the
allowed set) with free capacity, a second `PmLogGetContext` with the same
name returns the identical handle without changing the registry — so also
without increasing the context count — and `PmLogFindContext` after it
returns that same handle; a non-reserved name violating the length or
character rule makes both operations reject with `InvalidContextName`. -/
theorem claim_C7_create_lookup_agreement (g : PmLogGlobals) (name : List Char) :
    (1 ≤ name.length → name.length ≤ PMLOG_MAX_CONTEXT_NAME_LEN →
     name.all isValidCtxNameChar = true → g.userContexts.length < g.maxUserContexts →
      (PmLogGetContext g (some name)).err = PmLogErr.None ∧
      PmLogGetContext (PmLogGetContext g (some name)).globals (some name) =
        ⟨PmLogErr.None, (PmLogGetContext g (some name)).handle,
          (PmLogGetContext g (some name)).globals⟩ ∧
      PmLogFindContext (PmLogGetContext g (some name)).globals (some name) =
        ⟨PmLogErr.None, (PmLogGetContext g (some name)).handle⟩) ∧
    (name ≠ kPmLogGlobalContextName → name ≠ kPmLogDefaultLibContextName →
     (name.length < 1 ∨ PMLOG_MAX_CONTEXT_NAME_LEN < name.length ∨
       ¬ name.all isValidCtxNameChar = true) →
      PmLogGetContext g (some name) = ⟨PmLogErr.InvalidContextName, none, g⟩ ∧
      PmLogFindContext g (some name) = ⟨PmLogErr.InvalidContextName, none⟩) := by
  constructor
  · intro h1 h2 h3 hcap
    have hvalid := validName_of_charset name h1 h2 h3
    obtain ⟨herr, ref, fh, hscan2⟩ := getContext_then_scan g name hvalid hcap
    rw [fh]
    set G := (PmLogGetContext g (some name)).globals with hG
    refine ⟨herr, ?_, ?_⟩
    · simp [PmLogGetContext, hvalid, hscan2]
    · simp [PmLogFindContext, hvalid, hscan2]
  · intro hg hl hbad
    have hinv := invalidName_of_charset name hg hl hbad
    constructor
    · simp [PmLogGetContext, hinv]
    · simp [PmLogFindContext, hinv]

/-- Witness for claim C7: the concrete free-capacity registry with the fresh
valid name `B` and the invalid name `!`. -/
theorem claim_C7_create_lookup_agreement_witness :
    (PmLogGetContext wFreeGlobals (some ['B'])).err = PmLogErr.None ∧
    PmLogGetContext (PmLogGetContext wFreeGlobals (some ['B'])).globals (some ['B']) =
      ⟨PmLogErr.None, (PmLogGetContext wFreeGlobals (some ['B'])).handle,
        (PmLogGetContext wFreeGlobals (some ['B'])).globals⟩ ∧
    PmLogFindContext (PmLogGetContext wFreeGlobals (some ['B'])).globals (some ['B']) =
      ⟨PmLogErr.None, (PmLogGetContext wFreeGlobals (some ['B'])).handle⟩ ∧
    PmLogGetContext wFreeGlobals (some ['!']) =
      ⟨PmLogErr.InvalidContextName, none, wFreeGlobals⟩ ∧
    PmLogFindContext wFreeGlobals (some ['!']) = ⟨PmLogErr.InvalidContextName, none⟩ := by
  obtain ⟨a, b, c⟩ := (claim_C7_create_lookup_agreement wFreeGlobals ['B']).1
    (by decide) (by decide) (by decide) (by decide)
  obtain ⟨d, e⟩ := (claim_C7_create_lookup_agreement wFreeGlobals ['!']).2
    (by decide) (by decide) (by decide)
  exact ⟨a, b, c, d, e⟩

/-- Helper: the defaults loop of the source computes the
specification-side first-hit over the ancestor chain. -/
theorem ctxDefaultsLoop_eq_chain (g : PmLogGlobals) :
    ∀ (n : Nat) (parent : List Char), parent.length ≤ n →
      ctxDefaultsLoop g parent = firstAncestorHit g (ancestorChainAux n parent) := by
  intro n
  induction n with
  | zero =>
    intro parent hlen
    have hp : parent = [] := List.length_eq_zero.mp (Nat.le_zero.mp hlen)
    subst hp
    unfold ctxDefaultsLoop
    simp [trimLastSegment, ancestorChainAux, firstAncestorHit]
  | succ n ih =>
    intro parent hlen
    unfold ctxDefaultsLoop
    simp only [ancestorChainAux]
    cases ht : trimLastSegment parent with
    | none => simp [firstAncestorHit]
    | some p =>
      simp only [firstAncestorHit]
      cases hf : findUserInfo g.userContexts p with
      | some info => simp [hf]
      | none =>
        simp [hf]
        exact ih p (by have := trimLastSegment_length ht; omega)

/-- Helper: every member of the ancestor chain is strictly shorter than the
name itself. -/
theorem mem_ancestorChainAux_length :
    ∀ (n : Nat) (name p : List Char),
      p ∈ ancestorChainAux n name → p.length < name.length := by
  intro n
  induction n with
  | zero =>
    intro name p hp
    simp [ancestorChainAux] at hp
  | succ n ih =>
    intro name p hp
    simp only [ancestorChainAux] at hp
    cases ht : trimLastSegment name with
    | none => rw [ht] at hp; simp at hp
    | some q =>
      rw [ht] at hp
      have hql := trimLastSegment_length ht
      rcases List.mem_cons.mp hp with rfl | hmem
      · exact hql
      · have := ih q p hmem
        omega

/-- Helper: appending a context whose component differs from the searched
name does not change the result of the user-context search. -/
theorem findUserInfo_append_ne (us : List PmLogContext_) (c : PmLogContext_)
    (p : List Char) (hne : p ≠ c.component) :
    findUserInfo (us ++ [c]) p = findUserInfo us p := by
  induction us with
  | nil => simp [findUserInfo, hne]
  | cons u rest ih =>
    simp only [List.cons_append, findUserInfo]
    by_cases hu : p = u.component
    · rw [if_pos hu, if_pos hu]
    · rw [if_neg hu, if_neg hu]
      exact ih

/-- Helper: the first-hit search ignores an appended context whose component
matches no chain member. -/
theorem firstAncestorHit_append (g : PmLogGlobals) (c : PmLogContext_)
    (chain : List (List Char)) (hne : ∀ p ∈ chain, p ≠ c.component) :
    firstAncestorHit { g with userContexts := g.userContexts ++ [c] } chain =
      firstAncestorHit g chain := by
  induction chain with
  | nil => rfl
  | cons p rest ih =>
    simp only [firstAncestorHit]
    rw [findUserInfo_append_ne g.userContexts c p (hne p (by simp))]
    cases findUserInfo g.userContexts p with
    | some info => rfl
    | none => exact ih fun q hq => hne q (by simp [hq])

/-- Helper: the defaults the source computes on the registry holding the
fresh, not-yet-initialized slot coincide with the specification-side nearest
ancestor computed on the registry before the append: the fresh component is
the whole name, while every chain member is strictly shorter. -/
theorem getContextDefaults_append (g : PmLogGlobals) (name : List Char)
    (c : PmLogContext_) (hc : c.component = name)
    (hlen : name.length ≤ PMLOG_MAX_CONTEXT_NAME_LEN) :
    PrvGetContextDefaults { g with userContexts := g.userContexts ++ [c] } name =
      nearestAncestorInfo g name := by
  unfold PrvGetContextDefaults nearestAncestorInfo ancestorChain
  rw [List.take_of_length_le hlen]
  rw [ctxDefaultsLoop_eq_chain _ name.length name le_rfl]
  apply firstAncestorHit_append
  intro p hp
  have hlt := mem_ancestorChainAux_length name.length name p hp
  intro he
  rw [he, hc] at hlt
  omega

/-- Claim C3: when `PmLogGetContext` creates a new context, the appended
record carries the (untruncated) name and the level and flags of the nearest
existing ancestor — obtained by repeatedly stripping the last
period-delimited segment, skipping missing intermediates — or those of the
global context when no ancestor exists, and the call succeeds. -/
theorem claim_C3_hierarchical_defaults (g : PmLogGlobals) (name : List Char)
    (hvalid : PrvValidateContextName name = PmLogErr.None)
    (hmiss : scanForName g name = none)
    (hcap : g.userContexts.length < g.maxUserContexts) :
    (PmLogGetContext g (some name)).err = PmLogErr.None ∧
    (PmLogGetContext g (some name)).globals.userContexts =
      g.userContexts ++ [⟨nearestAncestorInfo g name, name⟩] := by
  have hlen := validName_length name hvalid
  have hcomp : name.take PMLOG_MAX_CONTEXT_NAME_LEN = name := List.take_of_length_le hlen
  have hnotfull : ¬ g.maxUserContexts ≤ g.userContexts.length := by omega
  constructor
  · simp [PmLogGetContext, hvalid, hmiss, hnotfull]
  · simp only [PmLogGetContext, hvalid, hmiss, hnotfull, ne_eq, not_true_eq_false,
      if_false, if_neg hnotfull, hcomp]
    rw [getContextDefaults_append g name _ rfl hlen]

/-- Witness for claim C3: the concrete registry holding only `A` (level 3,
flags 9, unlike the global context); creating `A.B.C` — whose intermediate
ancestor `A.B` does not exist — appends a context inheriting the settings
of `A`. -/
theorem claim_C3_hierarchical_defaults_witness :
    nearestAncestorInfo wFreeGlobals ['A', '.', 'B', '.', 'C'] = ⟨3, 9⟩ ∧
    (PmLogGetContext wFreeGlobals (some ['A', '.', 'B', '.', 'C'])).globals.userContexts =
      wFreeGlobals.userContexts ++
        [⟨nearestAncestorInfo wFreeGlobals ['A', '.', 'B', '.', 'C'],
          ['A', '.', 'B', '.', 'C']⟩] := by
  constructor
  · decide
  · exact (claim_C3_hierarchical_defaults wFreeGlobals ['A', '.', 'B', '.', 'C']
      (by decide) (by decide) (by decide)).2

/-- Helper: an id holding a space or brace anywhere is rejected by the
message-id scan — by the character test when reached, by the length guard
otherwise. -/
theorem validateMsgidScan_bad :
    ∀ (m : List Char) (len : Nat), (∃ c ∈ m, c = ' ' ∨ c = '{' ∨ c = '}') →
      validateMsgidScan m len = PmLogErr.InvalidMsgID := by
  intro m
  induction m with
  | nil =>
    intro len h
    simp at h
  | cons c rest ih =>
    intro len h
    unfold validateMsgidScan
    by_cases hlen : MSGID_LEN ≤ len
    · rw [if_pos hlen]
    · rw [if_neg hlen]
      by_cases hc : (c = ' ' || c = '{' || c = '}') = true
      · rw [if_pos hc]
      · rw [if_neg hc]
        apply ih
        rcases h with ⟨d, hd, hbad⟩
        rcases List.mem_cons.mp hd with rfl | hmem
        · exfalso
          apply hc
          rcases hbad with rfl | rfl | rfl <;> decide
        · exact ⟨d, hmem, hbad⟩

/-- Claim C6 counterexample: an empty message id in a structured non-debug
call does not surface `EmptyMsgID` to the caller — both entry points return
`InvalidFormat` for it. -/
theorem claim_C6_counterexample :
    PmLogString_ (fun _ => true) wTestCtx kPmLogLevel_Info (some []) none (some ['x']) =
      PmLogErr.InvalidFormat ∧
    _PmLogMsgKV (fun _ => true) wTestCtx kPmLogLevel_Info 0 (some []) 0 none none [] =
      PmLogErr.InvalidFormat ∧
    PmLogErr.InvalidFormat ≠ PmLogErr.EmptyMsgID := by
  refine ⟨by decide, by decide, by decide⟩

/-- Claim C6, as amended: in a structured (non-debug, enabled) call, a NULL
message id or one containing a space or brace yields `InvalidMsgID` to the
caller; a zero-length message id is detected as the distinct internal
`EmptyMsgID` condition but the call returns `InvalidFormat` — not
`EmptyMsgID` — to the caller, for both `PmLogString_` and `_PmLogMsgKV`. -/
theorem claim_C6_msgid_error_conditions (jsax : List Char → Bool)
    (ctx : PmLogContext_) (level : Int) (msgid : Option (List Char))
    (kvpairs : Option (List Char)) (message : Option (List Char))
    (flags : Nat) (kv_count : Nat) (keys formats : Option (List Char))
    (fmtResult : List Char)
    (hchk : PrvCheckContext ctx level = PmLogErr.None)
    (hdbg : level ≠ kPmLogLevel_Debug) :
    (msgid = none ∨ (∃ m, msgid = some m ∧ ∃ c ∈ m, c = ' ' ∨ c = '{' ∨ c = '}') →
      PmLogString_ jsax ctx level msgid kvpairs message = PmLogErr.InvalidMsgID ∧
      _PmLogMsgKV jsax ctx level flags msgid kv_count keys formats fmtResult =
        PmLogErr.InvalidMsgID) ∧
    (msgid = some [] →
      PmLogString_ jsax ctx level msgid kvpairs message = PmLogErr.InvalidFormat ∧
      _PmLogMsgKV jsax ctx level flags msgid kv_count keys formats fmtResult =
        PmLogErr.InvalidFormat) := by
  constructor
  · intro hbad
    have hmsg : validate_msgid msgid = PmLogErr.InvalidMsgID := by
      rcases hbad with rfl | ⟨m, rfl, hex⟩
      · rfl
      · exact validateMsgidScan_bad m 0 hex
    constructor
    · simp [PmLogString_, hchk, hdbg, hmsg]
    · simp [_PmLogMsgKV, hchk, hdbg, hmsg]
  · rintro rfl
    have hmsg : validate_msgid (some []) = PmLogErr.EmptyMsgID := rfl
    constructor
    · simp [PmLogString_, hchk, hdbg, hmsg]
    · simp [_PmLogMsgKV, hchk, hdbg, hmsg]

/-- Witness for claim C6 (amended): concrete calls with a NULL id and with
an empty id at the enabled info level. -/
theorem claim_C6_msgid_error_conditions_witness :
    PmLogString_ (fun _ => true) wTestCtx kPmLogLevel_Info none none (some ['x']) =
      PmLogErr.InvalidMsgID ∧
    PmLogString_ (fun _ => true) wTestCtx kPmLogLevel_Info (some []) none (some ['x']) =
      PmLogErr.InvalidFormat := by
  refine ⟨?_, ?_⟩
  · exact ((claim_C6_msgid_error_conditions (fun _ => true) wTestCtx kPmLogLevel_Info
      none none (some ['x']) 0 0 none none [] (by decide) (by decide)).1 (Or.inl rfl)).1
  · exact ((claim_C6_msgid_error_conditions (fun _ => true) wTestCtx kPmLogLevel_Info
      (some []) none (some ['x']) 0 0 none none [] (by decide) (by decide)).2 rfl).1

/-- Helper: the boundary scan accepts as soon as its first candidate lies in
bounds and the parser accepts the corresponding prefix. -/
theorem vjs_first_hit (jsax : List Char → Bool) (kvpairs : List Char) (wt : Bool)
    (errIn : PmLogErr) (idx : Nat)
    (hfind : strstrIdx (vjsSearchStr wt) kvpairs = some idx)
    (hbound : ¬ BUFFER_LEN - 1 < idx + vjsMoveIndex wt)
    (hjsax : jsax (kvpairs.take (idx + vjsMoveIndex wt)) = true) :
    validate_json_string jsax kvpairs errIn wt = (true, errIn) := by
  unfold validate_json_string
  unfold vjsLoop
  split
  · rename_i heq
    rw [hfind] at heq
    exact absurd heq (by simp)
  · rename_i i heq
    rw [hfind] at heq
    cases heq
    rw [if_neg (by simpa using hbound), if_pos (by simpa using hjsax)]

/-- Helper: the success path of `_PmLogMsgKV` for a non-debug enabled level
with a valid message id, a non-zero count, a clean key list, an agreeing
format and an accepted key-value prefix. -/
theorem msgKV_success (jsax : List Char → Bool) (ctx : PmLogContext_) (level : Int)
    (flags : Nat) (m : List Char) (kv_count : Nat) (keys formats : List Char)
    (fmtResult : List Char)
    (hchk : PrvCheckContext ctx level = PmLogErr.None)
    (hdbg : level ≠ kPmLogLevel_Debug)
    (hmsg : validate_msgid (some m) = PmLogErr.None)
    (hkv : kv_count ≠ 0)
    (hkeys : validate_keys kv_count (some keys) = true)
    (hfmt : validate_format flags kv_count (some formats) = true)
    (hjson : (validate_json_string jsax (fmtResult.take (BUFFER_LEN - 1))
        PmLogErr.None true).1 = true) :
    _PmLogMsgKV jsax ctx level flags (some m) kv_count (some keys) (some formats)
      fmtResult = PmLogErr.None := by
  simp [_PmLogMsgKV, hchk, hdbg, hmsg, hkv, hkeys, hfmt, hjson]

/-- Helper: the format-disagreement path of `_PmLogMsgKV`: with everything
else clean, a failing `validate_format` yields `InvalidFormat`. -/
theorem msgKV_format_mismatch (jsax : List Char → Bool) (ctx : PmLogContext_)
    (level : Int) (flags : Nat) (m : List Char) (kv_count : Nat)
    (keys formats : List Char) (fmtResult : List Char)
    (hchk : PrvCheckContext ctx level = PmLogErr.None)
    (hdbg : level ≠ kPmLogLevel_Debug)
    (hmsg : validate_msgid (some m) = PmLogErr.None)
    (hkv : kv_count ≠ 0)
    (hkeys : validate_keys kv_count (some keys) = true)
    (hfmt : validate_format flags kv_count (some formats) = false) :
    _PmLogMsgKV jsax ctx level flags (some m) kv_count (some keys) (some formats)
      fmtResult = PmLogErr.InvalidFormat := by
  simp [_PmLogMsgKV, hchk, hdbg, hmsg, hkv, hkeys, hfmt]

/-- Claim C5 counterexample: with a declared count of 2 and a format of two
conversions but only ONE separator-delimited key in the key list, the call
is accepted — the number of keys in the key list is never counted; only the
`kv_count` argument is compared with the conversion count. -/
theorem claim_C5_counterexample :
    _PmLogMsgKV (fun _ => true) wTestCtx kPmLogLevel_Info 0 (some ['M']) 2
      (some ['k', '1']) (some ['%', 's', '=', '%', 'd'])
      ('\x7b' :: '\x7d' :: ' ' :: ['x']) = PmLogErr.None := by
  apply msgKV_success
  · decide
  · decide
  · decide
  · decide
  · decide
  · decide
  · rw [vjs_first_hit (fun _ => true) _ true PmLogErr.None 1 (by decide) (by decide) rfl]

/-- Claim C5, as amended: in `_PmLogMsgKV` at a non-debug enabled level with
a valid message id, a non-zero `kv_count` and a clean key list, it is the
`kv_count` argument — not the number of separator-delimited keys in the key
list — that must equal the number of non-literal percent conversions of the
format string (a doubled percent not counted), plus one when the with-clock
flag is set: a disagreement is rejected with `InvalidFormat`, and on
agreement the call proceeds and succeeds once the assembled key-value prefix
is accepted by the JSON parser. -/
theorem claim_C5_key_format_agreement (jsax : List Char → Bool)
    (ctx : PmLogContext_) (level : Int) (flags : Nat) (m : List Char)
    (kv_count : Nat) (keys formats : List Char) (fmtResult : List Char)
    (hchk : PrvCheckContext ctx level = PmLogErr.None)
    (hdbg : level ≠ kPmLogLevel_Debug)
    (hmsg : validate_msgid (some m) = PmLogErr.None)
    (hkv : kv_count ≠ 0)
    (hkeys : validKeysScan keys = true) :
    (¬ (if flags &&& kPmLogValidateFormatFlag_LogWithClock ≠ 0 then kv_count + 1
          else kv_count) = countConversions formats →
      _PmLogMsgKV jsax ctx level flags (some m) kv_count (some keys) (some formats)
        fmtResult = PmLogErr.InvalidFormat) ∧
    ((if flags &&& kPmLogValidateFormatFlag_LogWithClock ≠ 0 then kv_count + 1
          else kv_count) = countConversions formats →
      (validate_json_string jsax (fmtResult.take (BUFFER_LEN - 1))
          PmLogErr.None true).1 = true →
      _PmLogMsgKV jsax ctx level flags (some m) kv_count (some keys) (some formats)
        fmtResult = PmLogErr.None) := by
  have hvk : validate_keys kv_count (some keys) = true := by
    simp only [validate_keys]
    rw [if_neg hkv]
    exact hkeys
  constructor
  · intro hne
    apply msgKV_format_mismatch jsax ctx level flags m kv_count keys formats fmtResult
      hchk hdbg hmsg hkv hvk
    simp only [validate_format]
    rw [if_neg hkv]
    by_cases hb : flags &&& kPmLogValidateFormatFlag_LogWithClock ≠ 0
    · rw [if_pos hb]
      rw [if_pos hb] at hne
      simpa using hne
    · rw [if_neg hb]
      rw [if_neg hb] at hne
      simpa using hne
  · intro heq hjson
    apply msgKV_success jsax ctx level flags m kv_count keys formats fmtResult
      hchk hdbg hmsg hkv hvk _ hjson
    simp only [validate_format]
    rw [if_neg hkv]
    by_cases hb : flags &&& kPmLogValidateFormatFlag_LogWithClock ≠ 0
    · rw [if_pos hb]
      rw [if_pos hb] at heq
      simpa using heq
    · rw [if_neg hb]
      rw [if_neg hb] at heq
      simpa using heq

/-- Witness for claim C5 (amended): the spec examples — count 2 with keys
`k1`, `k2` and format of two conversions is accepted; count 2 with a single
conversion is rejected with `InvalidFormat`. -/
theorem claim_C5_key_format_agreement_witness :
    _PmLogMsgKV (fun _ => true) wTestCtx kPmLogLevel_Info 0 (some ['M']) 2
      (some ['k', '1', SOH, 'k', '2']) (some ['%', 's', '=', '%', 'd'])
      ('\x7b' :: '\x7d' :: ' ' :: ['y']) = PmLogErr.None ∧
    _PmLogMsgKV (fun _ => true) wTestCtx kPmLogLevel_Info 0 (some ['M']) 2
      (some ['k', '1', SOH, 'k', '2']) (some ['%', 's'])
      ('\x7b' :: '\x7d' :: ' ' :: ['y']) = PmLogErr.InvalidFormat := by
  constructor
  · exact (claim_C5_key_format_agreement (fun _ => true) wTestCtx kPmLogLevel_Info 0
      ['M'] 2 ['k', '1', SOH, 'k', '2'] ['%', 's', '=', '%', 'd']
      ('\x7b' :: '\x7d' :: ' ' :: ['y']) (by decide) (by decide) (by decide)
      (by decide) (by decide)).2 (by decide)
      (by rw [vjs_first_hit (fun _ => true) _ true PmLogErr.None 1
        (by decide) (by decide) rfl])
  · exact (claim_C5_key_format_agreement (fun _ => true) wTestCtx kPmLogLevel_Info 0
      ['M'] 2 ['k', '1', SOH, 'k', '2'] ['%', 's']
      ('\x7b' :: '\x7d' :: ' ' :: ['y']) (by decide) (by decide) (by decide)
      (by decide) (by decide)).1 (by decide)

/-- Claim C9: when obtaining the LEGACY_LOG context succeeds, the free-text
print entry points ignore the caller-supplied handle entirely — the result
(error code, registry and the context used for the enabled check and the
dispatched line) is the same for any two caller handles, and the used
context is the resolved LEGACY_LOG handle. -/
theorem claim_C9_legacy_context_forced (g : PmLogGlobals) (c1 c2 : Option CtxRef)
    (level : Int) (fmt : Option (List Char))
    (hleg : (PmLogGetContext g (some LEGACY_LOG)).err = PmLogErr.None) :
    PmLogPrint_ g c1 level fmt = PmLogPrint_ g c2 level fmt ∧
    PmLogVPrint_ g c1 level fmt = PmLogVPrint_ g c2 level fmt ∧
    (PmLogPrint_ g c1 level fmt).used =
      PrvResolveContext (PmLogGetContext g (some LEGACY_LOG)).globals
        (PmLogGetContext g (some LEGACY_LOG)).handle ∧
    (PmLogVPrint_ g c1 level fmt).used =
      PrvResolveContext (PmLogGetContext g (some LEGACY_LOG)).globals
        (PmLogGetContext g (some LEGACY_LOG)).handle := by
  simp only [PmLogPrint_, PmLogVPrint_]
  rw [if_pos hleg, if_pos hleg]
  refine ⟨rfl, rfl, ?_, ?_⟩ <;>
  · cases hres : PrvResolveContext (PmLogGetContext g (some LEGACY_LOG)).globals
        (PmLogGetContext g (some LEGACY_LOG)).handle with
    | none => rfl
    | some ctxP =>
      cases fmt with
      | none =>
        dsimp only
        split_ifs <;> rfl
      | some f =>
        dsimp only
        split_ifs <;> rfl

/-- Witness for claim C9: a concrete registry already holding the LEGACY_LOG
context; a call with the NULL handle and one with the global-context handle
coincide and both use the LEGACY_LOG context. -/
theorem claim_C9_legacy_context_forced_witness :
    PmLogPrint_ wLegacyGlobals none kPmLogLevel_Info (some ['h', 'i']) =
      PmLogPrint_ wLegacyGlobals (some CtxRef.global) kPmLogLevel_Info (some ['h', 'i']) ∧
    (PmLogPrint_ wLegacyGlobals none kPmLogLevel_Info (some ['h', 'i'])).used =
      PrvResolveContext (PmLogGetContext wLegacyGlobals (some LEGACY_LOG)).globals
        (PmLogGetContext wLegacyGlobals (some LEGACY_LOG)).handle := by
  obtain ⟨a, b, c, d⟩ := claim_C9_legacy_context_forced wLegacyGlobals none
    (some CtxRef.global) kPmLogLevel_Info (some ['h', 'i']) (by decide)
  exact ⟨a, c⟩

end PmLog
